import Mathlib

/-!
Verification of the fluent data-transformation container in `src/index.ts`.

The container (`DataProcessor`) wraps a JavaScript array of numbers; every
transformation reassigns `this.data` to a freshly allocated array (`map`,
`filter`, spread copies) and returns `this`.  We embed it at two levels:

* a value level: each operation as a pure function on `List ℚ`
  (JavaScript numbers are modelled by exact rationals); the suspending
  (`*Async`) variants act on a state carrying the data together with the
  accumulated simulated delay, since `await delay` only advances time;
* a store level for the claims about object identity and defensive copies:
  a `Store` holds the allocated arrays (allocation appends, so an array's
  reference is its index) and the processor objects (a processor is a
  mutable cell holding the reference of its current `data` array).
-/

namespace DataProcessor

/-- `add(value)`: `this.data = this.data.map(item => item + value)`. -/
def add (value : ℚ) (data : List ℚ) : List ℚ :=
  data.map (fun item => item + value)

/-- `multiply(value)`: `this.data = this.data.map(item => item * value)`. -/
def multiply (value : ℚ) (data : List ℚ) : List ℚ :=
  data.map (fun item => item * value)

/-- `filterGreaterThan(threshold)`: `this.data = this.data.filter(item => item > threshold)`. -/
def filterGreaterThan (threshold : ℚ) (data : List ℚ) : List ℚ :=
  data.filter (fun item => item > threshold)

/-- `sort(ascending)`: `this.data.sort((a, b) => ascending ? a - b : b - a)`.
The comparator `a - b` orders numerically ascending, `b - a` descending; any
correct stable sort models `Array.prototype.sort` on bare numbers. -/
def sort (ascending : Bool) (data : List ℚ) : List ℚ :=
  if ascending then data.insertionSort (fun a b => a ≤ b)
  else data.insertionSort (fun a b => b ≤ a)

/-- `getResult()`: `return [...this.data]` — the value of the returned copy. -/
def getResult (data : List ℚ) : List ℚ :=
  data

end DataProcessor

/-- `new DataProcessor(initialData)` / `createProcessor(initialData)`:
the value stored is a copy of `initialData`. -/
def createProcessor (initialData : List ℚ) : List ℚ :=
  initialData

/-- State of a processor during an asynchronous chain: its `data` array value
plus the total simulated delay elapsed so far (`await setTimeout` only adds
to the latter). -/
structure ProcState where
  data : List ℚ
  elapsed : ℕ
  deriving Repr, DecidableEq

namespace DataProcessor

/-- `addAsync(value, delayMs)`: awaits `delayMs`, then performs the same
mutation as `add` and returns `this`. -/
def addAsync (value : ℚ) (delayMs : ℕ) (s : ProcState) : ProcState :=
  { data := add value s.data, elapsed := s.elapsed + delayMs }

/-- `multiplyAsync(value, delayMs)`: awaits `delayMs`, then performs the same
mutation as `multiply` and returns `this`. -/
def multiplyAsync (value : ℚ) (delayMs : ℕ) (s : ProcState) : ProcState :=
  { data := multiply value s.data, elapsed := s.elapsed + delayMs }

/-- `filterGreaterThanAsync(threshold, delayMs)`: awaits `delayMs`, then
performs the same mutation as `filterGreaterThan` and returns `this`. -/
def filterGreaterThanAsync (threshold : ℚ) (delayMs : ℕ) (s : ProcState) : ProcState :=
  { data := filterGreaterThan threshold s.data, elapsed := s.elapsed + delayMs }

/-- `getResultAsync(delayMs)`: awaits `delayMs`, then returns `[...this.data]`;
the container itself is left with its data unchanged. -/
def getResultAsync (delayMs : ℕ) (s : ProcState) : ProcState × List ℚ :=
  ({ s with elapsed := s.elapsed + delayMs }, s.data)

end DataProcessor

/-- `createProcessorAsync(initialData, delayMs)`: awaits `delayMs`, then
returns `new DataProcessor(initialData)`. -/
def createProcessorAsync (initialData : List ℚ) (delayMs : ℕ) : ProcState :=
  { data := createProcessor initialData, elapsed := delayMs }

/-- The JavaScript heap, restricted to what the program allocates: `arrays`
holds every allocated number array (a reference is an index; allocation
appends), `procs` holds every `DataProcessor` object as the reference of the
array currently stored in its `data` field (a processor identity is an index
into `procs`). -/
structure Store where
  arrays : List (List ℚ)
  procs : List ℕ
  deriving Repr, DecidableEq

namespace Store

/-- Allocate a fresh array holding value `v`; returns its reference. -/
def allocArray (st : Store) (v : List ℚ) : Store × ℕ :=
  ({ st with arrays := st.arrays ++ [v] }, st.arrays.length)

/-- Read the array at reference `r`. -/
def readArray (st : Store) (r : ℕ) : List ℚ :=
  st.arrays.getD r []

/-- Overwrite the array at reference `r` (models the caller mutating an
array it holds a reference to). -/
def writeArray (st : Store) (r : ℕ) (v : List ℚ) : Store :=
  { st with arrays := st.arrays.set r v }

/-- The reference held in the `data` field of processor `pid`. -/
def procRef (st : Store) (pid : ℕ) : ℕ :=
  st.procs.getD pid 0

/-- The value of the array in the `data` field of processor `pid`. -/
def procData (st : Store) (pid : ℕ) : List ℚ :=
  st.readArray (st.procRef pid)

/-- `new DataProcessor(initialData)` (also `createProcessor`): allocates a
fresh spread copy `[...initialData]` of the caller's array and a fresh
processor object whose `data` field refers to that copy; returns the new
processor's identity. -/
def newProcessor (st : Store) (initRef : ℕ) : Store × ℕ :=
  let st1r := st.allocArray (st.readArray initRef)
  (⟨st1r.1.arrays, st1r.1.procs ++ [st1r.2]⟩, st1r.1.procs.length)

/-- `new DataProcessor()` with the default argument: `initialData = []`,
so the fresh copy is the empty array. -/
def newProcessorEmpty (st : Store) : Store × ℕ :=
  let st1r := st.allocArray []
  (⟨st1r.1.arrays, st1r.1.procs ++ [st1r.2]⟩, st1r.1.procs.length)

/-- `add(value)` on processor `pid`: `this.data = this.data.map(...)`
allocates the mapped array and stores its reference in the `data` field;
`return this` returns the same processor identity. -/
def add (st : Store) (pid : ℕ) (value : ℚ) : Store × ℕ :=
  let st1r := st.allocArray (DataProcessor.add value (st.procData pid))
  (⟨st1r.1.arrays, st1r.1.procs.set pid st1r.2⟩, pid)

/-- `multiply(value)` on processor `pid`, as `add`. -/
def multiply (st : Store) (pid : ℕ) (value : ℚ) : Store × ℕ :=
  let st1r := st.allocArray (DataProcessor.multiply value (st.procData pid))
  (⟨st1r.1.arrays, st1r.1.procs.set pid st1r.2⟩, pid)

/-- `getResult()` on processor `pid`: `return [...this.data]` allocates a
fresh copy of the data array and returns its reference; the processor is
not touched. -/
def getResult (st : Store) (pid : ℕ) : Store × ℕ :=
  st.allocArray (st.procData pid)

end Store

/-! End-to-end scenarios from the spec's testable properties. -/

example : DataProcessor.multiply 2 (DataProcessor.add 5 [1, 2, 3]) = [12, 14, 16] := by
  norm_num [DataProcessor.add, DataProcessor.multiply]

example :
    DataProcessor.sort false
      (DataProcessor.filterGreaterThan 35
        (DataProcessor.multiply 2 (DataProcessor.add 5 [5, 10, 15, 20, 25]))) =
      [60, 50, 40] := by
  norm_num [DataProcessor.add, DataProcessor.multiply, DataProcessor.filterGreaterThan,
    DataProcessor.sort, List.insertionSort, List.orderedInsert]

/-! Helper lemmas about `List.getD`, used by the store-level proofs. -/

theorem list_getD_concat_self {α : Type} (l : List α) (v d : α) :
    (l ++ [v]).getD l.length d = v := by
  rw [List.getD_eq_getElem?_getD, List.getElem?_concat_length, Option.getD_some]

theorem list_getD_append_left {α : Type} (l l2 : List α) (r : ℕ) (d : α)
    (h : r < l.length) : (l ++ l2).getD r d = l.getD r d := by
  rw [List.getD_eq_getElem?_getD, List.getD_eq_getElem?_getD, List.getElem?_append]
  rw [if_pos h]

theorem list_getD_set_ne {α : Type} (l : List α) (i j : ℕ) (v d : α) (h : i ≠ j) :
    (l.set i v).getD j d = l.getD j d := by
  rw [List.getD_eq_getElem?_getD, List.getD_eq_getElem?_getD, List.getElem?_set_ne h]

theorem list_getD_set_self {α : Type} (l : List α) (i : ℕ) (v d : α) (h : i < l.length) :
    (l.set i v).getD i d = v := by
  rw [List.getD_eq_getElem?_getD, List.getElem?_set_eq_of_lt v h, Option.getD_some]

/-! The claim theorems. -/

/-- C1: for every starting state and every parameter value, each suspending
variant (`addAsync`, `multiplyAsync`, `filterGreaterThanAsync`,
`getResultAsync`, `createProcessorAsync`) leaves the container data in the
same state and produces the same result as its immediate counterpart
(`add`, `multiply`, `filterGreaterThan`, `getResult`, `createProcessor`)
applied to the same starting data with the same parameters; the delay
parameter only accumulates into elapsed time and never influences the
resulting value. -/
theorem async_variants_refine_sync (s : ProcState) (l : List ℚ) (v t : ℚ) (d : ℕ) :
    (DataProcessor.addAsync v d s).data = DataProcessor.add v s.data ∧
    (DataProcessor.multiplyAsync v d s).data = DataProcessor.multiply v s.data ∧
    (DataProcessor.filterGreaterThanAsync t d s).data =
      DataProcessor.filterGreaterThan t s.data ∧
    (DataProcessor.getResultAsync d s).2 = DataProcessor.getResult s.data ∧
    (DataProcessor.getResultAsync d s).1.data = s.data ∧
    (createProcessorAsync l d).data = createProcessor l :=
  ⟨rfl, rfl, rfl, rfl, rfl, rfl⟩

/-- C3: `filterGreaterThan t` retains exactly the elements strictly greater
than `t`: the output is no longer than the input, every retained element is
`> t`, every input element `> t` is retained, and the output is a sublist of
the input (relative order preserved). -/
theorem filterGreaterThan_correct (l : List ℚ) (t : ℚ) :
    (DataProcessor.filterGreaterThan t l).length ≤ l.length ∧
    (∀ x ∈ DataProcessor.filterGreaterThan t l, t < x) ∧
    (∀ x ∈ l, t < x → x ∈ DataProcessor.filterGreaterThan t l) ∧
    List.Sublist (DataProcessor.filterGreaterThan t l) l := by
  refine ⟨List.length_filter_le _ _, ?_, ?_, List.filter_sublist _⟩
  · intro x hx
    simp only [DataProcessor.filterGreaterThan, List.mem_filter, gt_iff_lt,
      decide_eq_true_eq] at hx
    exact hx.2
  · intro x hx h
    simp only [DataProcessor.filterGreaterThan, List.mem_filter, gt_iff_lt,
      decide_eq_true_eq]
    exact ⟨hx, h⟩

/-- C7: `multiply 1` is the identity on the data, and `multiply 0` yields a
sequence of zeros of the same length. -/
theorem multiply_one_zero (l : List ℚ) :
    DataProcessor.multiply 1 l = l ∧
    (DataProcessor.multiply 0 l).length = l.length ∧
    DataProcessor.multiply 0 l = List.replicate l.length 0 := by
  refine ⟨?_, ?_, ?_⟩
  · simp [DataProcessor.multiply]
  · simp [DataProcessor.multiply]
  · simp [DataProcessor.multiply, List.map_const']

/-- C8: `add k` followed by `add (-k)` restores the original sequence exactly
(rationals model exact arithmetic), hence in particular the original multiset
of values. -/
theorem add_inverse (l : List ℚ) (k : ℚ) :
    DataProcessor.add (-k) (DataProcessor.add k l) = l ∧
    (↑(DataProcessor.add (-k) (DataProcessor.add k l)) : Multiset ℚ) = (↑l : Multiset ℚ) := by
  have h : DataProcessor.add (-k) (DataProcessor.add k l) = l := by
    simp [DataProcessor.add, List.map_map, Function.comp]
  exact ⟨h, by rw [h]⟩

/-- C9: `add` and `multiply` preserve the length of the data;
`filterGreaterThan` never grows it; `sort` preserves it. -/
theorem length_invariants (l : List ℚ) (v t : ℚ) (b : Bool) :
    (DataProcessor.add v l).length = l.length ∧
    (DataProcessor.multiply v l).length = l.length ∧
    (DataProcessor.filterGreaterThan t l).length ≤ l.length ∧
    (DataProcessor.sort b l).length = l.length := by
  refine ⟨by simp [DataProcessor.add], by simp [DataProcessor.multiply],
    List.length_filter_le _ _, ?_⟩
  cases b <;> simp [DataProcessor.sort, List.length_insertionSort]

/-- C10: `filterGreaterThan t` is idempotent: filtering twice with the same
threshold yields the same sequence as filtering once. -/
theorem filterGreaterThan_idempotent (l : List ℚ) (t : ℚ) :
    DataProcessor.filterGreaterThan t (DataProcessor.filterGreaterThan t l) =
      DataProcessor.filterGreaterThan t l := by
  simp [DataProcessor.filterGreaterThan, List.filter_filter]

/-- C4: `sort` reorders the elements numerically — ascending (`a - b`
comparator) when the flag is true, descending when false — while preserving
the multiset of elements; and `sort true` followed by `sort false` yields the
ascending-sorted sequence reversed. -/
theorem sort_correct (l : List ℚ) (b : Bool) :
    (DataProcessor.sort b l).Perm l ∧
    List.Sorted (fun a c => a ≤ c) (DataProcessor.sort true l) ∧
    List.Sorted (fun a c => c ≤ a) (DataProcessor.sort false l) ∧
    DataProcessor.sort false (DataProcessor.sort true l) =
      (DataProcessor.sort true l).reverse := by
  haveI htot : IsTotal ℚ (fun a c : ℚ => c ≤ a) := ⟨fun a c => le_total c a⟩
  haveI htrans : IsTrans ℚ (fun a c : ℚ => c ≤ a) := ⟨fun _ _ _ h1 h2 => h2.trans h1⟩
  haveI hanti : IsAntisymm ℚ (fun a c : ℚ => c ≤ a) := ⟨fun _ _ h1 h2 => le_antisymm h2 h1⟩
  have hperm : ∀ m : List ℚ, (DataProcessor.sort false m).Perm m := fun m =>
    List.perm_insertionSort _ m
  have hsortedDesc : ∀ m : List ℚ,
      List.Sorted (fun a c : ℚ => c ≤ a) (DataProcessor.sort false m) := fun m =>
    List.sorted_insertionSort _ m
  have hsortedAsc :
      List.Sorted (fun a c : ℚ => a ≤ c) (DataProcessor.sort true l) :=
    List.sorted_insertionSort _ l
  refine ⟨?_, hsortedAsc, hsortedDesc l, ?_⟩
  · cases b
    · exact hperm l
    · exact List.perm_insertionSort _ l
  · apply List.eq_of_perm_of_sorted
      ((hperm _).trans (List.reverse_perm _).symm) (hsortedDesc _)
    exact List.pairwise_reverse.mpr hsortedAsc

/-- C2: on a valid processor, `add(value)` replaces each element `e` with
`e + value` and returns the very processor it was invoked on (chaining), and
likewise `multiply(value)` with `e * value`. -/
theorem add_multiply_chainable (st : Store) (pid : ℕ) (v : ℚ)
    (hp : pid < st.procs.length) :
    (Store.add st pid v).2 = pid ∧
    (Store.add st pid v).1.procData pid = DataProcessor.add v (st.procData pid) ∧
    (Store.multiply st pid v).2 = pid ∧
    (Store.multiply st pid v).1.procData pid = DataProcessor.multiply v (st.procData pid) := by
  have key : ∀ arr : List ℚ,
      (Store.mk (st.arrays ++ [arr]) (st.procs.set pid st.arrays.length)).procData pid
        = arr := by
    intro arr
    show ((st.arrays ++ [arr]).getD ((st.procs.set pid st.arrays.length).getD pid 0) []) = arr
    rw [list_getD_set_self _ _ _ _ hp]
    exact list_getD_concat_self st.arrays arr []
  exact ⟨rfl, key _, rfl, key _⟩

/-- C5: `getResult()` returns a fresh copy whose value equals the internal
sequence, the container's processor table and data are untouched, a second
call returns the same sequence again, and overwriting the returned copy does
not change the container's internal data. -/
theorem getResult_defensive_copy (st : Store) (pid : ℕ)
    (h : st.procRef pid < st.arrays.length) :
    (Store.getResult st pid).1.readArray (Store.getResult st pid).2 = st.procData pid ∧
    (Store.getResult st pid).1.procs = st.procs ∧
    (Store.getResult st pid).1.procData pid = st.procData pid ∧
    (Store.getResult (Store.getResult st pid).1 pid).1.readArray
      (Store.getResult (Store.getResult st pid).1 pid).2 = st.procData pid ∧
    ∀ w, ((Store.getResult st pid).1.writeArray (Store.getResult st pid).2 w).procData pid
      = st.procData pid := by
  have hcopy : (Store.getResult st pid).1.readArray (Store.getResult st pid).2
      = st.procData pid := list_getD_concat_self st.arrays (st.procData pid) []
  have hframe : (Store.getResult st pid).1.procData pid = st.procData pid :=
    list_getD_append_left st.arrays [st.procData pid] (st.procRef pid) [] h
  refine ⟨hcopy, rfl, hframe, ?_, ?_⟩
  · have h4 : (Store.getResult (Store.getResult st pid).1 pid).1.readArray
        (Store.getResult (Store.getResult st pid).1 pid).2
        = (Store.getResult st pid).1.procData pid := list_getD_concat_self _ _ _
    exact h4.trans hframe
  · intro w
    show ((st.arrays ++ [st.procData pid]).set st.arrays.length w).getD
      (st.procs.getD pid 0) [] = st.procData pid
    rw [list_getD_set_ne (st.arrays ++ [st.procData pid]) st.arrays.length
      (st.procs.getD pid 0) w [] (Nat.ne_of_gt h)]
    exact list_getD_append_left st.arrays [st.procData pid] (st.procs.getD pid 0) [] h

/-- C6: `new DataProcessor(initial)` (also `createProcessor`) produces a new
processor — its identity is fresh and the processor table grows by one —
whose data is a copy of the caller's array, equal element for element;
overwriting the caller's array afterwards does not change the container's
data; with the default argument the container starts empty. -/
theorem createProcessor_defensive_copy (st : Store) (initRef : ℕ)
    (h : initRef < st.arrays.length) :
    (Store.newProcessor st initRef).1.procData (Store.newProcessor st initRef).2
      = st.readArray initRef ∧
    (Store.newProcessor st initRef).2 = st.procs.length ∧
    (Store.newProcessor st initRef).1.procs.length = st.procs.length + 1 ∧
    (∀ w, ((Store.newProcessor st initRef).1.writeArray initRef w).procData
        (Store.newProcessor st initRef).2 = st.readArray initRef) ∧
    (Store.newProcessorEmpty st).1.procData (Store.newProcessorEmpty st).2 = [] := by
  refine ⟨?_, rfl, by simp [Store.newProcessor, Store.allocArray], ?_, ?_⟩
  · show (st.arrays ++ [st.readArray initRef]).getD
      ((st.procs ++ [st.arrays.length]).getD st.procs.length 0) [] = st.readArray initRef
    rw [list_getD_concat_self st.procs st.arrays.length 0]
    exact list_getD_concat_self st.arrays (st.readArray initRef) []
  · intro w
    show ((st.arrays ++ [st.readArray initRef]).set initRef w).getD
      ((st.procs ++ [st.arrays.length]).getD st.procs.length 0) [] = st.readArray initRef
    rw [list_getD_concat_self st.procs st.arrays.length 0]
    rw [list_getD_set_ne _ _ _ _ _ (Nat.ne_of_lt h)]
    exact list_getD_concat_self st.arrays (st.readArray initRef) []
  · show (st.arrays ++ [[]]).getD
      ((st.procs ++ [st.arrays.length]).getD st.procs.length 0) [] = []
    rw [list_getD_concat_self st.procs st.arrays.length 0]
    exact list_getD_concat_self st.arrays [] []

/-- Witness for C2 at the store holding one array `[1, 2]` owned by
processor 0, with `value = 3`. -/
theorem add_multiply_chainable_witness :
    0 < (Store.mk [[(1 : ℚ), 2]] [0]).procs.length ∧
    ((Store.add (Store.mk [[(1 : ℚ), 2]] [0]) 0 3).2 = 0 ∧
      (Store.add (Store.mk [[(1 : ℚ), 2]] [0]) 0 3).1.procData 0
        = DataProcessor.add 3 ((Store.mk [[(1 : ℚ), 2]] [0]).procData 0) ∧
      (Store.multiply (Store.mk [[(1 : ℚ), 2]] [0]) 0 3).2 = 0 ∧
      (Store.multiply (Store.mk [[(1 : ℚ), 2]] [0]) 0 3).1.procData 0
        = DataProcessor.multiply 3 ((Store.mk [[(1 : ℚ), 2]] [0]).procData 0)) :=
  ⟨by decide, add_multiply_chainable (Store.mk [[(1 : ℚ), 2]] [0]) 0 3 (by decide)⟩

/-- Witness for C5 at the store holding one array `[5]` owned by
processor 0. -/
theorem getResult_defensive_copy_witness :
    (Store.mk [[(5 : ℚ)]] [0]).procRef 0 < (Store.mk [[(5 : ℚ)]] [0]).arrays.length ∧
    ((Store.getResult (Store.mk [[(5 : ℚ)]] [0]) 0).1.readArray
        (Store.getResult (Store.mk [[(5 : ℚ)]] [0]) 0).2
        = (Store.mk [[(5 : ℚ)]] [0]).procData 0 ∧
      (Store.getResult (Store.mk [[(5 : ℚ)]] [0]) 0).1.procs
        = (Store.mk [[(5 : ℚ)]] [0]).procs ∧
      (Store.getResult (Store.mk [[(5 : ℚ)]] [0]) 0).1.procData 0
        = (Store.mk [[(5 : ℚ)]] [0]).procData 0 ∧
      (Store.getResult (Store.getResult (Store.mk [[(5 : ℚ)]] [0]) 0).1 0).1.readArray
        (Store.getResult (Store.getResult (Store.mk [[(5 : ℚ)]] [0]) 0).1 0).2
        = (Store.mk [[(5 : ℚ)]] [0]).procData 0 ∧
      ∀ w, ((Store.getResult (Store.mk [[(5 : ℚ)]] [0]) 0).1.writeArray
          (Store.getResult (Store.mk [[(5 : ℚ)]] [0]) 0).2 w).procData 0
        = (Store.mk [[(5 : ℚ)]] [0]).procData 0) :=
  ⟨by decide, getResult_defensive_copy (Store.mk [[(5 : ℚ)]] [0]) 0 (by decide)⟩

/-- Witness for C6 at the store holding one array `[1, 2]` and no processor
yet, constructing from reference 0. -/
theorem createProcessor_defensive_copy_witness :
    0 < (Store.mk [[(1 : ℚ), 2]] []).arrays.length ∧
    ((Store.newProcessor (Store.mk [[(1 : ℚ), 2]] []) 0).1.procData
        (Store.newProcessor (Store.mk [[(1 : ℚ), 2]] []) 0).2
        = (Store.mk [[(1 : ℚ), 2]] []).readArray 0 ∧
      (Store.newProcessor (Store.mk [[(1 : ℚ), 2]] []) 0).2
        = (Store.mk [[(1 : ℚ), 2]] []).procs.length ∧
      (Store.newProcessor (Store.mk [[(1 : ℚ), 2]] []) 0).1.procs.length
        = (Store.mk [[(1 : ℚ), 2]] []).procs.length + 1 ∧
      (∀ w, ((Store.newProcessor (Store.mk [[(1 : ℚ), 2]] []) 0).1.writeArray 0 w).procData
          (Store.newProcessor (Store.mk [[(1 : ℚ), 2]] []) 0).2
          = (Store.mk [[(1 : ℚ), 2]] []).readArray 0) ∧
      (Store.newProcessorEmpty (Store.mk [[(1 : ℚ), 2]] [])).1.procData
        (Store.newProcessorEmpty (Store.mk [[(1 : ℚ), 2]] [])).2 = []) :=
  ⟨by decide, createProcessor_defensive_copy (Store.mk [[(1 : ℚ), 2]] []) 0 (by decide)⟩
